import Mathlib

/-!
Shallow embedding of the run-orchestration core of rpc-perf (`src/main.rs`):
the warmup convergence controller (`do_warmup`), the rate-limiter wiring,
the client-pool launch context, and the windowed measurement/termination
loop in `main`.

Concurrency is modelled by letting the environment (the client workers)
rewrite the worker-owned metrics counters between the controller's reads:
each poll interval receives an `Obs` describing the counter values the
controller observes.  Wall-clock time is modelled as natural-number
timestamps; the measurement loop's sub-interval sleep iterations leave all
state untouched, so the loop is modelled at the level of its boundary
crossings, with the current time passed explicitly where the code consults
it.  Rust `f64` hit-rate arithmetic is modelled by exact rational
arithmetic, with the single `f64`-specific behaviour the code relies on —
`0.0 / 0.0` is NaN and `NaN >= t` is false for every `t` — embedded as an
explicit zero-denominator branch.
-/

namespace RpcPerf

/-- The named statistics the orchestration core touches.  The real `Stat`
enumeration lives in the external `stats` module; `other` stands for every
remaining counter (latency stats, request counts, ...), indexed by a tag. -/
inductive Stat : Type where
  | window : Stat
  | responsesHit : Stat
  | responsesMiss : Stat
  | other : ℕ → Stat
deriving DecidableEq

/-- Modelled from the spec: the Metrics capability (`stats` module, not under
`src/`) is a store of named counters supporting `increment`, `reading`
(an optional count), and bulk `zero`.  A counter that was never touched
reads `none`. -/
def Metrics : Type := Stat → Option ℕ

/-- Modelled from the spec: `reading(stat) -> optional count`. -/
def Metrics.reading (m : Metrics) (s : Stat) : Option ℕ := m s

/-- Modelled from the spec: `increment(stat)` bumps the counter, registering
it at 1 when it had no reading yet. -/
def Metrics.increment (m : Metrics) (s : Stat) : Metrics :=
  fun t => if t = s then some ((m s).getD 0 + 1) else m t

/-- Modelled from the spec: `zero()` resets all counters. -/
def Metrics.zero (_m : Metrics) : Metrics := fun _ => some 0

/-- A metrics store with no registered counters, used as a sample initial
state. -/
def metricsInit : Metrics := fun _ => none

/-- The configuration surface consumed by `main` and `do_warmup`.  Fields
suffixed `Conf` hold the raw configured values; the accessor functions
below model the external `config` module's getters. -/
structure Config : Type where
  clients : ℕ
  interval : ℕ
  windowsConf : Option ℕ
  warmup_hitrate : Option ℚ
  requestRatelimitConf : Option ℕ
  connectRatelimitConf : Option ℕ
  closeRateConf : Option ℕ
  request_distribution : ℕ
deriving DecidableEq

/-- Modelled from the spec: a configured limit of zero is the same as an
absent limit ("a limit of zero or unset yields no limiter"; "windows = 0 or
unset ⇒ loop runs indefinitely").  The `config` module is not under `src/`,
so its getters are modelled by this normalisation. -/
def normalizeLimit : Option ℕ → Option ℕ
  | some l => if l = 0 then none else some l
  | none => none

/-- Modelled from the spec: `config.request_ratelimit()`. -/
def Config.request_ratelimit (c : Config) : Option ℕ :=
  normalizeLimit c.requestRatelimitConf

/-- Modelled from the spec: `config.connect_ratelimit()`. -/
def Config.connect_ratelimit (c : Config) : Option ℕ :=
  normalizeLimit c.connectRatelimitConf

/-- Modelled from the spec: `config.close_rate()`. -/
def Config.close_rate (c : Config) : Option ℕ :=
  normalizeLimit c.closeRateConf

/-- Modelled from the spec: `config.windows()`. -/
def Config.windows (c : Config) : Option ℕ :=
  normalizeLimit c.windowsConf

/-- A token-bucket rate limiter as constructed by `main`: capacity, refill
quantum, rate, and the optional arrival-time distribution strategy
installed via `set_strategy` (strategies are abstracted to tags). -/
structure Ratelimiter : Type where
  capacity : ℕ
  quantum : ℕ
  rate : ℕ
  strategy : Option ℕ
deriving DecidableEq

/-- `Ratelimiter::new(capacity, quantum, rate)` — no strategy installed. -/
def Ratelimiter.new (capacity quantum rate : ℕ) : Ratelimiter :=
  ⟨capacity, quantum, rate, none⟩

/-- `ratelimiter.set_strategy(d)`. -/
def Ratelimiter.set_strategy (r : Ratelimiter) (d : ℕ) : Ratelimiter :=
  ⟨r.capacity, r.quantum, r.rate, some d⟩

/-- `main.rs` lines 72–78: the request limiter, built only when a request
rate limit is configured, with capacity `clients`, quantum 1, rate `limit`,
and the configured request distribution strategy. -/
def buildRequestRatelimiter (c : Config) : Option Ratelimiter :=
  match c.request_ratelimit with
  | some limit => some ((Ratelimiter.new c.clients 1 limit).set_strategy c.request_distribution)
  | none => none

/-- `main.rs` lines 80–88: the connect limiter. -/
def buildConnectRatelimiter (c : Config) : Option Ratelimiter :=
  match c.connect_ratelimit with
  | some limit => some (Ratelimiter.new c.clients 1 limit)
  | none => none

/-- `main.rs` lines 90–98: the close-rate limiter. -/
def buildCloseRate (c : Config) : Option Ratelimiter :=
  match c.close_rate with
  | some rate => some (Ratelimiter.new c.clients 1 rate)
  | none => none

/-- The `ClientConfig` bundle handed to `launch_clients`.  Stop flags are
identified by their allocation index (`control` is the flag's id): the
first `AtomicBool` created during a run has id 0, the next id 1, and so
on, which makes "a freshly created private flag" a distinct id. -/
structure ClientConfig : Type where
  control : ℕ
  request_ratelimiter : Option Ratelimiter
  connect_ratelimiter : Option Ratelimiter
  close_rate : Option Ratelimiter
deriving DecidableEq

/-- The observable actions the orchestration core performs, in program
order.  `newFlag id v` is `AtomicBool::new(v)`, `storeFlag id v` is
`flag.store(v)` (with `true` meaning "run" and `false` meaning "stop"),
`launchPool cc` is `launch_clients(cc)`, `zeroAll` is `metrics.zero()`,
and `printStats` is the periodic report. -/
inductive Effect : Type where
  | newFlag : ℕ → Bool → Effect
  | storeFlag : ℕ → Bool → Effect
  | launchPool : ClientConfig → Effect
  | sleepSecs : ℕ → Effect
  | incrStat : Stat → Effect
  | zeroAll : Effect
  | printStats : Effect
deriving DecidableEq

/-- `main.rs` line 169/172: `hitrate = hit / (hit + miss)` in `f64`,
compared as `hitrate >= target`.  When `hit + miss == 0` the division is
`0.0 / 0.0 = NaN`, and `NaN >= target` is false for every `f64` target;
that case is embedded as the explicit first branch.  The nonzero case is
exact rational division. -/
def hitrateMeets (target : ℚ) (hit miss : ℕ) : Bool :=
  if hit + miss = 0 then false
  else decide (target ≤ (hit : ℚ) / ((hit : ℚ) + (miss : ℚ)))

/-- What the warmup controller observes in one poll interval: the
`ResponsesHit` and `ResponsesMiss` readings left by the concurrently
running workers (absent when the counter was never touched), plus the
readings of every other worker-owned counter. -/
structure Obs : Type where
  hit : Option ℕ
  miss : Option ℕ
  otherStats : ℕ → Option ℕ

/-- The workers' concurrent counter updates during one interval: every
counter except `Window` (which only the controlling loop advances) is
replaced by the observed value. -/
def envWrite (m : Metrics) (o : Obs) : Metrics :=
  fun s =>
    match s with
    | Stat.window => m Stat.window
    | Stat.responsesHit => o.hit
    | Stat.responsesMiss => o.miss
    | Stat.other t => o.otherStats t

/-- The per-interval hit-rate check, phrased on an observation: the
readings default to 0 via `unwrap_or(0)` (`main.rs` lines 167–168). -/
def obsMeets (target : ℚ) (o : Obs) : Bool :=
  hitrateMeets target (o.hit.getD 0) (o.miss.getD 0)

/-- The result of one iteration of the warmup poll loop. -/
structure IterResult : Type where
  warm : ℕ
  metrics : Metrics
  converged : Bool
  effects : List Effect

/-- One iteration of the `do_warmup` poll loop (`main.rs` lines 163–185):
sleep one interval, let the workers' writes land, increment `Window`, read
`ResponsesHit`/`ResponsesMiss` with `unwrap_or(0)`, update the convergence
counter `warm` (increment on success, reset to 0 on failure), then either
— when `warm >= 3` — zero all counters, store "stop" to the private flag
and converge, or zero all counters and continue. -/
def warmupIter (target : ℚ) (interval fid warm : ℕ) (m : Metrics) (o : Obs) : IterResult :=
  let m0 := envWrite m o
  let m1 := Metrics.increment m0 Stat.window
  let hit := (Metrics.reading m1 Stat.responsesHit).getD 0
  let miss := (Metrics.reading m1 Stat.responsesMiss).getD 0
  let warm1 := if hitrateMeets target hit miss then warm + 1 else 0
  if 3 ≤ warm1 then
    ⟨warm1, Metrics.zero m1, true,
      [Effect.sleepSecs interval, Effect.incrStat Stat.window, Effect.zeroAll,
        Effect.storeFlag fid false]⟩
  else
    ⟨warm1, Metrics.zero m1, false,
      [Effect.sleepSecs interval, Effect.incrStat Stat.window, Effect.zeroAll]⟩

/-- The outcome of running the warmup poll loop over a finite schedule of
observations.  `converged = false` means the schedule was exhausted with
the loop still running (the real loop has no other exit). -/
structure LoopResult : Type where
  metrics : Metrics
  effects : List Effect
  converged : Bool

/-- The `do_warmup` poll loop over a schedule of per-interval
observations. -/
def warmupLoop (target : ℚ) (interval fid : ℕ) :
    ℕ → Metrics → List Obs → LoopResult
  | _, m, [] => ⟨m, [], false⟩
  | warm, m, o :: rest =>
    let r := warmupIter target interval fid warm m o
    if r.converged then ⟨r.metrics, r.effects, true⟩
    else
      let r2 := warmupLoop target interval fid r.warm r.metrics rest
      ⟨r2.metrics, r.effects ++ r2.effects, r2.converged⟩

/-- The outcome of `do_warmup`: the metrics on return, the client-pool
context launched for warmup (if any), whether the loop converged, the
number of stop flags allocated, and the effect trace. -/
structure WarmupOutcome : Type where
  metrics : Metrics
  launched : Option ClientConfig
  converged : Bool
  usedFlags : ℕ
  effects : List Effect

/-- `do_warmup` (`main.rs` lines 145–189): skipped entirely when no warmup
target hit-rate is configured; otherwise allocate a private stop flag
(initially "run"), launch a fully unthrottled client pool against it, and
poll until the convergence counter reaches 3.  `fid` is the id the next
allocated flag receives. -/
def do_warmup (cfg : Config) (m : Metrics) (fid : ℕ) (obs : List Obs) : WarmupOutcome :=
  match cfg.warmup_hitrate with
  | none => ⟨m, none, false, 0, []⟩
  | some target =>
    let cc : ClientConfig := ⟨fid, none, none, none⟩
    let r := warmupLoop target cfg.interval fid 0 m obs
    ⟨r.metrics, some cc, r.converged, 1,
      Effect.newFlag fid true :: Effect.launchPool cc :: r.effects⟩

/-- The state carried by the measurement loop: the shared metrics, the
`next` boundary timestamp, and the value of the shared stop flag. -/
structure MeasState : Type where
  metrics : Metrics
  next : ℕ
  control : Bool

/-- `main.rs` lines 130–135: the window-limit check.  With a maximum
configured, the optional `Window` reading is unwrapped — `none` is a
panic, modelled as `Except.error ()`; otherwise the check compares the
reading against the maximum.  With no maximum configured there is no
check and no unwrap. -/
def windowCheck (windows : Option ℕ) (windowReading : Option ℕ) : Except Unit Bool :=
  match windows with
  | some maxWindow =>
    match windowReading with
    | none => Except.error ()
    | some w => Except.ok (decide (maxWindow ≤ w))
  | none => Except.ok false

/-- One boundary crossing of the measurement loop (`main.rs` lines
126–137): increment `Window`, print, run the window-limit check; on limit
reached, store "stop" to the shared flag (id `fid`) and exit; otherwise
advance `next` by exactly one interval.  Returns the new state, whether
the loop exited, and the effects, or a panic from the unwrap. -/
def measBoundaryE (cfg : Config) (fid : ℕ) (s : MeasState) :
    Except Unit (MeasState × Bool × List Effect) :=
  let m1 := Metrics.increment s.metrics Stat.window
  match windowCheck cfg.windows (Metrics.reading m1 Stat.window) with
  | Except.error e => Except.error e
  | Except.ok exit =>
    if exit then
      Except.ok (⟨m1, s.next, false⟩, true,
        [Effect.incrStat Stat.window, Effect.printStats, Effect.storeFlag fid false])
    else
      Except.ok (⟨m1, s.next + cfg.interval, s.control⟩, false,
        [Effect.incrStat Stat.window, Effect.printStats])

/-- One iteration of the measurement loop body (`main.rs` lines 122–138)
with the current time made explicit: before the boundary (`next > now`)
the loop only sleeps 1 ms, leaving all state untouched; at or past the
boundary it performs a boundary crossing.  The second component records
whether a crossing happened, the third whether the loop exited. -/
def measLoopStep (cfg : Config) (fid : ℕ) (s : MeasState) (now : ℕ) :
    Except Unit (MeasState × Bool × Bool × List Effect) :=
  if now < s.next then Except.ok (s, false, false, [])
  else
    match measBoundaryE cfg fid s with
    | Except.error e => Except.error e
    | Except.ok (s1, exit, es) => Except.ok (s1, true, exit, es)

/-- The measurement loop run for up to `n` boundary crossings (the
sub-boundary sleep iterations change no state and are elided).  Returns
the final state, whether the loop exited via the window limit, and the
accumulated effects. -/
def measRun (cfg : Config) (fid : ℕ) : ℕ → MeasState → Except Unit (MeasState × Bool × List Effect)
  | 0, s => Except.ok (s, false, [])
  | n + 1, s =>
    match measBoundaryE cfg fid s with
    | Except.error e => Except.error e
    | Except.ok (s1, exit, es) =>
      if exit then Except.ok (s1, true, es)
      else
        match measRun cfg fid n s1 with
        | Except.error e => Except.error e
        | Except.ok (s2, exit2, es2) => Except.ok (s2, exit2, es ++ es2)

/-- The outcome of the orchestration in `main`. -/
structure MainOutcome : Type where
  warmup : WarmupOutcome
  steadyControl : ℕ
  steadyCC : ClientConfig
  finalMeas : MeasState
  exited : Bool
  faulted : Bool
  measEffects : List Effect
  effects : List Effect

/-- The orchestration core of `main` (`main.rs` lines 36–143): run
`do_warmup`, allocate the steady-state stop flag (the next flag id),
build the three optional rate limiters, assemble the steady-state
`ClientConfig`, launch the pool, set `next = now + interval`, and drive
the measurement loop for up to `fuel` boundary crossings.  `obs` is the
warmup phase's observation schedule, `now0` the time at which the
steady-state phase begins. -/
def mainRun (cfg : Config) (m0 : Metrics) (obs : List Obs) (now0 fuel : ℕ) : MainOutcome :=
  let w := do_warmup cfg m0 0 obs
  let sfid := w.usedFlags
  let cc : ClientConfig :=
    ⟨sfid, buildRequestRatelimiter cfg, buildConnectRatelimiter cfg, buildCloseRate cfg⟩
  let s0 : MeasState := ⟨w.metrics, now0 + cfg.interval, true⟩
  let pre := w.effects ++ [Effect.newFlag sfid true, Effect.launchPool cc]
  match measRun cfg sfid fuel s0 with
  | Except.error _ => ⟨w, sfid, cc, s0, false, true, [], pre⟩
  | Except.ok (s1, exit, es) => ⟨w, sfid, cc, s1, exit, false, es, pre ++ es⟩

/-- The convergence-counter dynamics of the warmup loop in isolation: the
streak counter over the per-interval success booleans, reporting whether
it ever reaches 3. -/
def streak3 (p : Obs → Bool) : ℕ → List Obs → Bool
  | _, [] => false
  | warm, o :: rest =>
    if 3 ≤ (if p o then warm + 1 else 0) then true
    else streak3 p (if p o then warm + 1 else 0) rest

/-! ### Helper lemmas: the warmup iteration -/

theorem reading_envWrite_hit (m : Metrics) (o : Obs) :
    Metrics.reading (Metrics.increment (envWrite m o) Stat.window) Stat.responsesHit = o.hit := rfl

theorem reading_envWrite_miss (m : Metrics) (o : Obs) :
    Metrics.reading (Metrics.increment (envWrite m o) Stat.window) Stat.responsesMiss = o.miss := rfl

theorem warmupIter_eq (t : ℚ) (i fid warm : ℕ) (m : Metrics) (o : Obs) :
    warmupIter t i fid warm m o =
      if 3 ≤ (if obsMeets t o then warm + 1 else 0) then
        ⟨(if obsMeets t o then warm + 1 else 0), Metrics.zero metricsInit, true,
          [Effect.sleepSecs i, Effect.incrStat Stat.window, Effect.zeroAll,
            Effect.storeFlag fid false]⟩
      else
        ⟨(if obsMeets t o then warm + 1 else 0), Metrics.zero metricsInit, false,
          [Effect.sleepSecs i, Effect.incrStat Stat.window, Effect.zeroAll]⟩ := rfl

theorem warmupIter_warm (t : ℚ) (i fid warm : ℕ) (m : Metrics) (o : Obs) :
    (warmupIter t i fid warm m o).warm = if obsMeets t o then warm + 1 else 0 := by
  rw [warmupIter_eq]
  by_cases h : 3 ≤ (if obsMeets t o then warm + 1 else 0)
  · rw [if_pos h]
  · rw [if_neg h]

theorem warmupIter_converged (t : ℚ) (i fid warm : ℕ) (m : Metrics) (o : Obs) :
    (warmupIter t i fid warm m o).converged =
      decide (3 ≤ if obsMeets t o then warm + 1 else 0) := by
  rw [warmupIter_eq]
  by_cases h : 3 ≤ (if obsMeets t o then warm + 1 else 0)
  · rw [if_pos h, decide_eq_true h]
  · rw [if_neg h, decide_eq_false h]

theorem warmupIter_metrics (t : ℚ) (i fid warm : ℕ) (m : Metrics) (o : Obs) (s : Stat) :
    Metrics.reading (warmupIter t i fid warm m o).metrics s = some 0 := by
  rw [warmupIter_eq]
  by_cases h : 3 ≤ (if obsMeets t o then warm + 1 else 0)
  · rw [if_pos h]; rfl
  · rw [if_neg h]; rfl

theorem warmupIter_effects (t : ℚ) (i fid warm : ℕ) (m : Metrics) (o : Obs) :
    (warmupIter t i fid warm m o).effects =
      Effect.sleepSecs i :: Effect.incrStat Stat.window :: Effect.zeroAll ::
        (if 3 ≤ (if obsMeets t o then warm + 1 else 0) then [Effect.storeFlag fid false]
          else []) := by
  rw [warmupIter_eq]
  by_cases h : 3 ≤ (if obsMeets t o then warm + 1 else 0)
  · rw [if_pos h, if_pos h]
  · rw [if_neg h, if_neg h]

/-! ### Helper lemmas: the streak characterisation (claim C1) -/

theorem streak3_cons_true (p : Obs → Bool) {o : Obs} (h : p o = true) (w : ℕ) (rest : List Obs) :
    streak3 p w (o :: rest) =
      if 3 ≤ w + 1 then true else streak3 p (w + 1) rest := by
  rw [streak3, h]
  simp

theorem streak3_cons_false (p : Obs → Bool) {o : Obs} (h : p o = false) (w : ℕ)
    (rest : List Obs) :
    streak3 p w (o :: rest) = streak3 p 0 rest := by
  rw [streak3, h]
  simp

theorem warmupLoop_converged_eq (t : ℚ) (i fid : ℕ) (obs : List Obs) :
    ∀ (warm : ℕ) (m : Metrics),
      (warmupLoop t i fid warm m obs).converged = streak3 (obsMeets t) warm obs := by
  induction obs with
  | nil => intro warm m; rfl
  | cons o rest ih =>
    intro warm m
    simp only [warmupLoop]
    rw [streak3]
    by_cases h : 3 ≤ (if obsMeets t o then warm + 1 else 0)
    · have hc : (warmupIter t i fid warm m o).converged = true := by
        rw [warmupIter_converged]; exact decide_eq_true h
      rw [if_pos hc, if_pos h]
    · have hc : (warmupIter t i fid warm m o).converged = false := by
        rw [warmupIter_converged]; exact decide_eq_false h
      rw [if_neg (by simp [hc]), if_neg h]
      show (warmupLoop t i fid (warmupIter t i fid warm m o).warm
        (warmupIter t i fid warm m o).metrics rest).converged = _
      rw [ih, warmupIter_warm]

theorem streak3_of_three (p : Obs → Bool) (l₁ : List Obs) :
    ∀ (w : ℕ) (a b c : Obs) (l₂ : List Obs),
      p a = true → p b = true → p c = true →
      streak3 p w (l₁ ++ a :: b :: c :: l₂) = true := by
  induction l₁ with
  | nil =>
    intro w a b c l₂ ha hb hc
    simp only [List.nil_append]
    rw [streak3_cons_true p ha, streak3_cons_true p hb, streak3_cons_true p hc]
    by_cases h1 : 3 ≤ w + 1
    · rw [if_pos h1]
    · rw [if_neg h1]
      by_cases h2 : 3 ≤ w + 1 + 1
      · rw [if_pos h2]
      · rw [if_neg h2, if_pos (show 3 ≤ w + 1 + 1 + 1 by omega)]
  | cons x l₁' ih =>
    intro w a b c l₂ ha hb hc
    rw [List.cons_append, streak3]
    by_cases h3 : 3 ≤ (if p x then w + 1 else 0)
    · rw [if_pos h3]
    · rw [if_neg h3]
      exact ih _ a b c l₂ ha hb hc

theorem streak3_elim (p : Obs → Bool) (bs : List Obs) :
    ∀ (w : ℕ), streak3 p w bs = true →
      ∃ l₁ mid l₂, bs = l₁ ++ mid ++ l₂ ∧ (∀ x ∈ mid, p x = true) ∧
        (l₁ = [] → 3 ≤ mid.length + w) ∧ (l₁ ≠ [] → 3 ≤ mid.length) := by
  induction bs with
  | nil => intro w h; simp [streak3] at h
  | cons o rest ih =>
    intro w h
    by_cases hp : p o = true
    · rw [streak3_cons_true p hp] at h
      by_cases h3 : 3 ≤ w + 1
      · refine ⟨[], [o], rest, by simp, by simp [hp], ?_, ?_⟩
        · intro _
          simp only [List.length_singleton]
          omega
        · intro hne; exact absurd rfl hne
      · rw [if_neg h3] at h
        obtain ⟨l₁, mid, l₂, heq, hmid, hnil, hne⟩ := ih (w + 1) h
        cases l₁ with
        | nil =>
          refine ⟨[], o :: mid, l₂, by simp [heq], ?_, ?_, ?_⟩
          · intro x hx
            rcases List.mem_cons.mp hx with hx | hx
            · rw [hx]; exact hp
            · exact hmid x hx
          · intro _
            have h4 := hnil rfl
            simp only [List.length_cons]
            omega
          · intro hne'; exact absurd rfl hne'
        | cons y l₁' =>
          refine ⟨o :: y :: l₁', mid, l₂, by simp [heq], hmid, ?_, ?_⟩
          · intro hcon; exact absurd hcon (by simp)
          · intro _; exact hne (by simp)
    · have hp' : p o = false := by simpa using hp
      rw [streak3_cons_false p hp'] at h
      obtain ⟨l₁, mid, l₂, heq, hmid, hnil, hne⟩ := ih 0 h
      have h3 : 3 ≤ mid.length := by
        rcases l₁ with _ | ⟨z, l₁'⟩
        · simpa using hnil rfl
        · exact hne (by simp)
      refine ⟨o :: l₁, mid, l₂, by simp [heq], hmid, ?_, ?_⟩
      · intro hcon; exact absurd hcon (by simp)
      · intro _; exact h3

/-! ### Claim C1 -/

/-- Claim C1: for every configured warmup target and every sequence of
per-interval observations, the warmup poll loop converges (transitions to
Converged and returns) if and only if three consecutive intervals each
report a hit-rate meeting the target; and any interval whose hit-rate is
below target (including the first) resets the consecutive-success counter
to zero. -/
theorem warmup_converges_iff_three_consecutive (target : ℚ) (i fid : ℕ) (m : Metrics)
    (obs : List Obs) :
    ((warmupLoop target i fid 0 m obs).converged = true ↔
      ∃ l₁ a b c l₂, obs = l₁ ++ a :: b :: c :: l₂ ∧
        obsMeets target a = true ∧ obsMeets target b = true ∧ obsMeets target c = true) ∧
    (∀ (warm : ℕ) (m' : Metrics) (o : Obs), obsMeets target o = false →
      (warmupIter target i fid warm m' o).warm = 0) := by
  constructor
  · rw [warmupLoop_converged_eq]
    constructor
    · intro h
      obtain ⟨l₁, mid, l₂, heq, hmid, hnil, hne⟩ := streak3_elim (obsMeets target) obs 0 h
      have h3 : 3 ≤ mid.length := by
        rcases l₁ with _ | _
        · simpa using hnil rfl
        · exact hne (by simp)
      rcases mid with _ | ⟨a, _ | ⟨b, _ | ⟨c, mid'⟩⟩⟩
      · simp only [List.length_nil] at h3; omega
      · simp only [List.length_cons, List.length_nil] at h3; omega
      · simp only [List.length_cons, List.length_nil] at h3; omega
      · refine ⟨l₁, a, b, c, mid' ++ l₂, ?_, ?_, ?_, ?_⟩
        · rw [heq]; simp
        · exact hmid a (by simp)
        · exact hmid b (by simp)
        · exact hmid c (by simp)
    · rintro ⟨l₁, a, b, c, l₂, heq, ha, hb, hc⟩
      rw [heq]
      exact streak3_of_three (obsMeets target) l₁ 0 a b c l₂ ha hb hc
  · intro warm m' o ho
    rw [warmupIter_warm, ho]
    simp

theorem warmup_converges_iff_three_consecutive_w :
    obsMeets 1 ⟨some 0, some 0, fun _ => none⟩ = false ∧
    (warmupIter 1 1 0 2 metricsInit ⟨some 0, some 0, fun _ => none⟩).warm = 0 :=
  ⟨rfl,
    (warmup_converges_iff_three_consecutive 1 1 0 metricsInit []).2 2 metricsInit
      ⟨some 0, some 0, fun _ => none⟩ rfl⟩

/-! ### Claim C2 -/

/-- Claim C2: in any warmup poll interval with zero observed hits and
misses (`hits + misses == 0`), the controller treats the interval as
failing to meet the target — the convergence counter resets to 0, the
iteration does not converge — and the zero-denominator hit-rate (an `f64`
NaN in the code, embedded as the explicit zero branch of `hitrateMeets`)
is never accepted as meeting the target, for any target. -/
theorem warmup_zero_denominator_not_met (target : ℚ) (i fid warm : ℕ) (m : Metrics) (o : Obs)
    (hh : o.hit.getD 0 = 0) (hm : o.miss.getD 0 = 0) :
    (warmupIter target i fid warm m o).warm = 0 ∧
    (warmupIter target i fid warm m o).converged = false ∧
    hitrateMeets target 0 0 = false := by
  have hob : obsMeets target o = false := by
    unfold obsMeets
    rw [hh, hm]
    rfl
  refine ⟨?_, ?_, rfl⟩
  · rw [warmupIter_warm, hob]
    simp
  · rw [warmupIter_converged, hob]
    simp

theorem warmup_zero_denominator_not_met_w :
    ((⟨none, some 0, fun _ => none⟩ : Obs).hit.getD 0 = 0) ∧
    ((⟨none, some 0, fun _ => none⟩ : Obs).miss.getD 0 = 0) ∧
    ((warmupIter (3 / 4) 1 0 2 metricsInit ⟨none, some 0, fun _ => none⟩).warm = 0 ∧
      (warmupIter (3 / 4) 1 0 2 metricsInit ⟨none, some 0, fun _ => none⟩).converged = false ∧
      hitrateMeets (3 / 4) 0 0 = false) :=
  ⟨rfl, rfl, warmup_zero_denominator_not_met (3 / 4) 1 0 2 metricsInit _ rfl rfl⟩

/-! ### Helper lemmas: the measurement loop -/

theorem reading_increment_self (m : Metrics) (s : Stat) :
    Metrics.reading (Metrics.increment m s) s = some ((Metrics.reading m s).getD 0 + 1) := by
  unfold Metrics.reading Metrics.increment
  simp

theorem windows_pos (cfg : Config) (M : ℕ) (h : Config.windows cfg = some M) : 1 ≤ M := by
  rw [Config.windows] at h
  rcases hc : cfg.windowsConf with _ | l <;> rw [hc] at h
  · simp [normalizeLimit] at h
  · by_cases hl : l = 0
    · simp [normalizeLimit, hl] at h
    · simp [normalizeLimit, hl] at h
      omega

theorem measBoundaryE_none (cfg : Config) (fid : ℕ) (s : MeasState)
    (hw : Config.windows cfg = none) :
    measBoundaryE cfg fid s =
      Except.ok (⟨Metrics.increment s.metrics Stat.window, s.next + cfg.interval, s.control⟩,
        false, [Effect.incrStat Stat.window, Effect.printStats]) := by
  simp only [measBoundaryE, hw, windowCheck]
  rfl

theorem measBoundaryE_some (cfg : Config) (fid : ℕ) (s : MeasState) (M k : ℕ)
    (hw : Config.windows cfg = some M)
    (hk : (Metrics.reading s.metrics Stat.window).getD 0 = k) :
    measBoundaryE cfg fid s =
      if M ≤ k + 1 then
        Except.ok (⟨Metrics.increment s.metrics Stat.window, s.next, false⟩, true,
          [Effect.incrStat Stat.window, Effect.printStats, Effect.storeFlag fid false])
      else
        Except.ok (⟨Metrics.increment s.metrics Stat.window, s.next + cfg.interval, s.control⟩,
          false, [Effect.incrStat Stat.window, Effect.printStats]) := by
  have h1 : Metrics.reading (Metrics.increment s.metrics Stat.window) Stat.window
      = some (k + 1) := by
    rw [reading_increment_self, hk]
  simp only [measBoundaryE, hw, h1, windowCheck]
  by_cases h : M ≤ k + 1
  · rw [decide_eq_true h, if_pos h]
    rfl
  · rw [decide_eq_false h, if_neg h]
    rfl

theorem measRun_succ_ok (cfg : Config) (fid n : ℕ) (s s1 : MeasState) (exit : Bool)
    (es : List Effect) (hb : measBoundaryE cfg fid s = Except.ok (s1, exit, es)) :
    measRun cfg fid (n + 1) s =
      if exit then Except.ok (s1, true, es)
      else
        match measRun cfg fid n s1 with
        | Except.error e => Except.error e
        | Except.ok (s2, exit2, es2) => Except.ok (s2, exit2, es ++ es2) := by
  rw [measRun, hb]

theorem measRun_spec (cfg : Config) (fid M : ℕ) (hw : Config.windows cfg = some M) :
    ∀ (n k : ℕ) (s : MeasState), (Metrics.reading s.metrics Stat.window).getD 0 = k → k < M →
      (k + n < M → ∃ s' es, measRun cfg fid n s = Except.ok (s', false, es) ∧
        (Metrics.reading s'.metrics Stat.window).getD 0 = k + n ∧
        s'.next = s.next + n * cfg.interval ∧ s'.control = s.control) ∧
      (M ≤ k + n → ∃ s' es, measRun cfg fid n s = Except.ok (s', true, es) ∧
        Metrics.reading s'.metrics Stat.window = some M ∧ s'.control = false ∧
        measRun cfg fid n s = measRun cfg fid (M - k) s) := by
  intro n
  induction n with
  | zero =>
    intro k s hk hkM
    constructor
    · intro _
      exact ⟨s, [], rfl, by simpa using hk, by simp, rfl⟩
    · intro h
      omega
  | succ n ih =>
    intro k s hk hkM
    have hb := measBoundaryE_some cfg fid s M k hw hk
    by_cases hx : M ≤ k + 1
    · rw [if_pos hx] at hb
      have hkM1 : k + 1 = M := by omega
      constructor
      · intro h
        omega
      · intro _
        have hr : measRun cfg fid (n + 1) s =
            Except.ok (⟨Metrics.increment s.metrics Stat.window, s.next, false⟩, true,
              [Effect.incrStat Stat.window, Effect.printStats, Effect.storeFlag fid false]) := by
          rw [measRun_succ_ok cfg fid n s _ _ _ hb]
          rfl
        have hr1 : measRun cfg fid (M - k) s =
            Except.ok (⟨Metrics.increment s.metrics Stat.window, s.next, false⟩, true,
              [Effect.incrStat Stat.window, Effect.printStats, Effect.storeFlag fid false]) := by
          have hMk : M - k = 0 + 1 := by omega
          rw [hMk, measRun_succ_ok cfg fid 0 s _ _ _ hb]
          rfl
        refine ⟨⟨Metrics.increment s.metrics Stat.window, s.next, false⟩,
          [Effect.incrStat Stat.window, Effect.printStats, Effect.storeFlag fid false],
          hr, ?_, rfl, by rw [hr, hr1]⟩
        rw [reading_increment_self, hk, hkM1]
    · rw [if_neg hx] at hb
      have hks : (Metrics.reading
          (⟨Metrics.increment s.metrics Stat.window, s.next + cfg.interval,
            s.control⟩ : MeasState).metrics Stat.window).getD 0 = k + 1 := by
        show (Metrics.reading (Metrics.increment s.metrics Stat.window) Stat.window).getD 0 = k + 1
        rw [reading_increment_self, hk]
        rfl
      have ihs := ih (k + 1)
        ⟨Metrics.increment s.metrics Stat.window, s.next + cfg.interval, s.control⟩ hks (by omega)
      have e1 : measRun cfg fid (n + 1) s =
          match measRun cfg fid n
            ⟨Metrics.increment s.metrics Stat.window, s.next + cfg.interval, s.control⟩ with
          | Except.error e => Except.error e
          | Except.ok (s2, exit2, es2) =>
            Except.ok (s2, exit2, [Effect.incrStat Stat.window, Effect.printStats] ++ es2) := by
        rw [measRun_succ_ok cfg fid n s _ _ _ hb]
        rfl
      constructor
      · intro h
        obtain ⟨s', es, g1, g2, g3, g4⟩ := ihs.1 (by omega)
        refine ⟨s', [Effect.incrStat Stat.window, Effect.printStats] ++ es, ?_, ?_, ?_, g4⟩
        · rw [e1, g1]
        · rw [g2]
          omega
        · rw [g3]
          show _ = s.next + (n + 1) * cfg.interval
          ring
      · intro h
        obtain ⟨s', es, g1, g2, g3, g4⟩ := ihs.2 (by omega)
        have e2 : measRun cfg fid (M - k) s =
            match measRun cfg fid (M - (k + 1))
              ⟨Metrics.increment s.metrics Stat.window, s.next + cfg.interval, s.control⟩ with
            | Except.error e => Except.error e
            | Except.ok (s2, exit2, es2) =>
              Except.ok (s2, exit2, [Effect.incrStat Stat.window, Effect.printStats] ++ es2) := by
          have hMk : M - k = (M - (k + 1)) + 1 := by omega
          rw [hMk, measRun_succ_ok cfg fid (M - (k + 1)) s _ _ _ hb]
          rfl
        refine ⟨s', [Effect.incrStat Stat.window, Effect.printStats] ++ es, ?_, g2, g3, ?_⟩
        · rw [e1, g1]
        · rw [e1, e2, g4]

/-! ### Claim C3 -/

/-- Claim C3: with a maximum window count `M` configured, the measurement
loop increments the `Window` stat by exactly one per boundary crossing:
starting from a `Window` reading of 0, after `n < M` crossings the loop
has not exited and `Window` reads `n`; at the `M`-th crossing the loop
stores "stop" to the shared flag and exits with `Window` equal to `M`;
and running with any larger crossing budget changes nothing — the loop
never runs a further interval. -/
theorem meas_loop_window_termination (cfg : Config) (fid M : ℕ) (s₀ : MeasState)
    (hw : Config.windows cfg = some M)
    (h0 : (Metrics.reading s₀.metrics Stat.window).getD 0 = 0) :
    (∀ n, n < M → ∃ s es, measRun cfg fid n s₀ = Except.ok (s, false, es) ∧
      (Metrics.reading s.metrics Stat.window).getD 0 = n ∧ s.control = s₀.control) ∧
    (∃ s es, measRun cfg fid M s₀ = Except.ok (s, true, es) ∧
      Metrics.reading s.metrics Stat.window = some M ∧ s.control = false) ∧
    (∀ n, M ≤ n → measRun cfg fid n s₀ = measRun cfg fid M s₀) := by
  have hM : 1 ≤ M := windows_pos cfg M hw
  have hs := measRun_spec cfg fid M hw
  refine ⟨?_, ?_, ?_⟩
  · intro n hn
    obtain ⟨s', es, h1, h2, h3, h4⟩ := (hs n 0 s₀ h0 (by omega)).1 (by omega)
    exact ⟨s', es, h1, by simpa using h2, h4⟩
  · obtain ⟨s', es, h1, h2, h3, h4⟩ := (hs M 0 s₀ h0 (by omega)).2 (by omega)
    exact ⟨s', es, h1, h2, h3⟩
  · intro n hn
    obtain ⟨s', es, h1, h2, h3, h4⟩ := (hs n 0 s₀ h0 (by omega)).2 (by omega)
    obtain ⟨sB, esB, g1, g2, g3, g4⟩ := (hs M 0 s₀ h0 (by omega)).2 (by omega)
    rw [h4, g4]

theorem meas_loop_window_termination_w :
    ∃ s es, measRun ⟨1, 1, some 1, none, none, none, none, 0⟩ 0 1 ⟨metricsInit, 0, true⟩ =
      Except.ok (s, true, es) ∧
      Metrics.reading s.metrics Stat.window = some 1 ∧ s.control = false :=
  (meas_loop_window_termination ⟨1, 1, some 1, none, none, none, none, 0⟩ 0 1
    ⟨metricsInit, 0, true⟩ rfl rfl).2.1

/-! ### Claim C4 -/

/-- Claim C4: for each operation class (connect, request, close), a
configured nonzero limit yields exactly one token-bucket limiter with
capacity equal to the configured client count, refill quantum 1, and rate
equal to the limit — the request limiter additionally carrying the
configured arrival-time distribution strategy — while a configured limit
of zero or an unset limit yields no limiter at all. -/
theorem ratelimiter_construction (cfg cfg' : Config) (Lr Lc Lx : ℕ)
    (hr : cfg.requestRatelimitConf = some Lr) (hr0 : Lr ≠ 0)
    (hc : cfg.connectRatelimitConf = some Lc) (hc0 : Lc ≠ 0)
    (hx : cfg.closeRateConf = some Lx) (hx0 : Lx ≠ 0)
    (hr' : cfg'.requestRatelimitConf = some 0 ∨ cfg'.requestRatelimitConf = none)
    (hc' : cfg'.connectRatelimitConf = some 0 ∨ cfg'.connectRatelimitConf = none)
    (hx' : cfg'.closeRateConf = some 0 ∨ cfg'.closeRateConf = none) :
    buildRequestRatelimiter cfg = some ⟨cfg.clients, 1, Lr, some cfg.request_distribution⟩ ∧
    buildConnectRatelimiter cfg = some ⟨cfg.clients, 1, Lc, none⟩ ∧
    buildCloseRate cfg = some ⟨cfg.clients, 1, Lx, none⟩ ∧
    buildRequestRatelimiter cfg' = none ∧
    buildConnectRatelimiter cfg' = none ∧
    buildCloseRate cfg' = none := by
  refine ⟨?_, ?_, ?_, ?_, ?_, ?_⟩
  · simp [buildRequestRatelimiter, Config.request_ratelimit, normalizeLimit, hr, hr0,
      Ratelimiter.new, Ratelimiter.set_strategy]
  · simp [buildConnectRatelimiter, Config.connect_ratelimit, normalizeLimit, hc, hc0,
      Ratelimiter.new]
  · simp [buildCloseRate, Config.close_rate, normalizeLimit, hx, hx0, Ratelimiter.new]
  · rcases hr' with h | h <;>
      simp [buildRequestRatelimiter, Config.request_ratelimit, normalizeLimit, h]
  · rcases hc' with h | h <;>
      simp [buildConnectRatelimiter, Config.connect_ratelimit, normalizeLimit, h]
  · rcases hx' with h | h <;>
      simp [buildCloseRate, Config.close_rate, normalizeLimit, h]

theorem ratelimiter_construction_w :
    buildRequestRatelimiter ⟨4, 1, none, none, some 10, some 20, some 30, 7⟩ =
      some ⟨4, 1, 10, some 7⟩ ∧
    buildConnectRatelimiter ⟨4, 1, none, none, some 10, some 20, some 30, 7⟩ =
      some ⟨4, 1, 20, none⟩ ∧
    buildCloseRate ⟨4, 1, none, none, some 10, some 20, some 30, 7⟩ = some ⟨4, 1, 30, none⟩ ∧
    buildRequestRatelimiter ⟨4, 1, none, none, some 0, none, some 0, 7⟩ = none ∧
    buildConnectRatelimiter ⟨4, 1, none, none, some 0, none, some 0, 7⟩ = none ∧
    buildCloseRate ⟨4, 1, none, none, some 0, none, some 0, 7⟩ = none :=
  ratelimiter_construction ⟨4, 1, none, none, some 10, some 20, some 30, 7⟩
    ⟨4, 1, none, none, some 0, none, some 0, 7⟩ 10 20 30 rfl (by decide) rfl (by decide)
    rfl (by decide) (Or.inl rfl) (Or.inr rfl) (Or.inl rfl)

/-! ### Helper lemmas: mainRun field computations -/

theorem mainRun_effects_eq (cfg : Config) (m0 : Metrics) (obs0 : List Obs) (now0 fuel : ℕ) :
    (mainRun cfg m0 obs0 now0 fuel).effects =
      (do_warmup cfg m0 0 obs0).effects ++
        [Effect.newFlag (do_warmup cfg m0 0 obs0).usedFlags true,
          Effect.launchPool (mainRun cfg m0 obs0 now0 fuel).steadyCC] ++
        (mainRun cfg m0 obs0 now0 fuel).measEffects := by
  simp only [mainRun]
  cases hX : measRun cfg (do_warmup cfg m0 0 obs0).usedFlags fuel
      ⟨(do_warmup cfg m0 0 obs0).metrics, now0 + cfg.interval, true⟩ with
  | error e => simp
  | ok r =>
    obtain ⟨s1, exit, es⟩ := r
    simp

theorem mainRun_fields (cfg : Config) (m0 : Metrics) (obs0 : List Obs) (now0 fuel : ℕ) :
    (mainRun cfg m0 obs0 now0 fuel).warmup = do_warmup cfg m0 0 obs0 ∧
    (mainRun cfg m0 obs0 now0 fuel).steadyControl = (do_warmup cfg m0 0 obs0).usedFlags ∧
    (mainRun cfg m0 obs0 now0 fuel).steadyCC =
      ⟨(do_warmup cfg m0 0 obs0).usedFlags, buildRequestRatelimiter cfg,
        buildConnectRatelimiter cfg, buildCloseRate cfg⟩ := by
  simp only [mainRun]
  cases hX : measRun cfg (do_warmup cfg m0 0 obs0).usedFlags fuel
      ⟨(do_warmup cfg m0 0 obs0).metrics, now0 + cfg.interval, true⟩ with
  | error e => exact ⟨rfl, rfl, rfl⟩
  | ok r =>
    obtain ⟨s1, exit, es⟩ := r
    exact ⟨rfl, rfl, rfl⟩

/-! ### Claim C5 -/

/-- Claim C5: with no warmup target configured, `do_warmup` performs no
action at all — it launches no client pool, leaves the metrics untouched,
allocates no stop flag, and produces no effect — and the run's effect
trace begins directly with the steady-state stop-flag allocation and
steady-state pool launch. -/
theorem warmup_skipped (cfg : Config) (m : Metrics) (fid : ℕ) (obs : List Obs)
    (h : cfg.warmup_hitrate = none) :
    do_warmup cfg m fid obs = ⟨m, none, false, 0, []⟩ ∧
    (∀ (m0 : Metrics) (obs0 : List Obs) (now0 fuel : ℕ),
      (mainRun cfg m0 obs0 now0 fuel).effects =
        Effect.newFlag 0 true :: Effect.launchPool (mainRun cfg m0 obs0 now0 fuel).steadyCC ::
          (mainRun cfg m0 obs0 now0 fuel).measEffects) := by
  have hdw : ∀ (m' : Metrics) (fid' : ℕ) (obs' : List Obs),
      do_warmup cfg m' fid' obs' = ⟨m', none, false, 0, []⟩ := by
    intro m' fid' obs'
    unfold do_warmup
    rw [h]
  refine ⟨hdw m fid obs, ?_⟩
  intro m0 obs0 now0 fuel
  rw [mainRun_effects_eq, hdw m0 0 obs0]
  simp

theorem warmup_skipped_w :
    do_warmup ⟨2, 1, none, none, none, none, none, 0⟩ metricsInit 5 [] =
      ⟨metricsInit, none, false, 0, []⟩ ∧
    (∀ (m0 : Metrics) (obs0 : List Obs) (now0 fuel : ℕ),
      (mainRun ⟨2, 1, none, none, none, none, none, 0⟩ m0 obs0 now0 fuel).effects =
        Effect.newFlag 0 true ::
          Effect.launchPool
            (mainRun ⟨2, 1, none, none, none, none, none, 0⟩ m0 obs0 now0 fuel).steadyCC ::
          (mainRun ⟨2, 1, none, none, none, none, none, 0⟩ m0 obs0 now0 fuel).measEffects) :=
  warmup_skipped ⟨2, 1, none, none, none, none, none, 0⟩ metricsInit 5 [] rfl

/-! ### Helper lemmas: boundary crossings preserve the accumulation -/

theorem measBoundaryE_continue (cfg : Config) (fid : ℕ) (s s' : MeasState) (es : List Effect)
    (h : measBoundaryE cfg fid s = Except.ok (s', false, es)) :
    s'.next = s.next + cfg.interval ∧ s'.control = s.control ∧
    s'.metrics = Metrics.increment s.metrics Stat.window := by
  cases hw : Config.windows cfg with
  | none =>
    rw [measBoundaryE_none cfg fid s hw] at h
    simp only [Except.ok.injEq, Prod.mk.injEq] at h
    obtain ⟨h1, _, _⟩ := h
    rw [← h1]
    exact ⟨rfl, rfl, rfl⟩
  | some M =>
    have hb := measBoundaryE_some cfg fid s M ((Metrics.reading s.metrics Stat.window).getD 0)
      hw rfl
    by_cases hx : M ≤ (Metrics.reading s.metrics Stat.window).getD 0 + 1
    · rw [if_pos hx] at hb
      rw [hb] at h
      simp at h
    · rw [if_neg hx] at hb
      rw [hb] at h
      simp only [Except.ok.injEq, Prod.mk.injEq] at h
      obtain ⟨h1, _, _⟩ := h
      rw [← h1]
      exact ⟨rfl, rfl, rfl⟩

theorem measRun_next_accum (cfg : Config) (fid : ℕ) :
    ∀ (n : ℕ) (s₀ s : MeasState) (es : List Effect),
      measRun cfg fid n s₀ = Except.ok (s, false, es) →
      s.next = s₀.next + n * cfg.interval := by
  intro n
  induction n with
  | zero =>
    intro s₀ s es h
    rw [measRun] at h
    simp only [Except.ok.injEq, Prod.mk.injEq] at h
    obtain ⟨h1, _, _⟩ := h
    rw [← h1]
    simp
  | succ n ih =>
    intro s₀ s es h
    cases hb : measBoundaryE cfg fid s₀ with
    | error e =>
      rw [measRun, hb] at h
      exact absurd h (by simp)
    | ok r =>
      obtain ⟨s1, exit, es1⟩ := r
      rw [measRun_succ_ok cfg fid n s₀ s1 exit es1 hb] at h
      cases exit with
      | true =>
        rw [if_pos rfl] at h
        simp at h
      | false =>
        rw [if_neg (by simp)] at h
        cases hr : measRun cfg fid n s1 with
        | error e =>
          rw [hr] at h
          exact absurd h (by simp)
        | ok r2 =>
          obtain ⟨s2, exit2, es2⟩ := r2
          rw [hr] at h
          simp only [Except.ok.injEq, Prod.mk.injEq] at h
          obtain ⟨h1, h2, _⟩ := h
          have hn1 := (measBoundaryE_continue cfg fid s₀ s1 es1 hb).1
          have hacc := ih s1 s2 es2 (by rw [hr, h2])
          rw [← h1, hacc, hn1]
          ring

/-! ### Claim C6 -/

/-- Claim C6: on every boundary crossing that does not terminate the run,
the measurement loop advances `next` by exactly one configured interval
added to the previous boundary — never recomputed from the current time
(the crossing's result is the same at every current time at or past the
boundary) — so starting from `next = now0 + interval`, after `n`
non-terminating crossings `next = now0 + (n+1) * interval`: boundaries
accumulate and do not drift. -/
theorem next_boundary_accumulates (cfg : Config) (fid : ℕ) :
    (∀ (s : MeasState) (now₁ now₂ : ℕ), s.next ≤ now₁ → s.next ≤ now₂ →
      measLoopStep cfg fid s now₁ = measLoopStep cfg fid s now₂) ∧
    (∀ (s s' : MeasState) (es : List Effect) (now : ℕ),
      measLoopStep cfg fid s now = Except.ok (s', true, false, es) →
      s'.next = s.next + cfg.interval) ∧
    (∀ (n now0 : ℕ) (s₀ s : MeasState) (es : List Effect),
      s₀.next = now0 + cfg.interval →
      measRun cfg fid n s₀ = Except.ok (s, false, es) →
      s.next = now0 + (n + 1) * cfg.interval) := by
  refine ⟨?_, ?_, ?_⟩
  · intro s now₁ now₂ h1 h2
    unfold measLoopStep
    rw [if_neg (by omega), if_neg (by omega)]
  · intro s s' es now h
    unfold measLoopStep at h
    by_cases hlt : now < s.next
    · rw [if_pos hlt] at h
      simp at h
    · rw [if_neg hlt] at h
      cases hb : measBoundaryE cfg fid s with
      | error e =>
        rw [hb] at h
        exact absurd h (by simp)
      | ok r =>
        obtain ⟨s1, exit, es1⟩ := r
        rw [hb] at h
        simp only [Except.ok.injEq, Prod.mk.injEq] at h
        obtain ⟨h1, _, h2, _⟩ := h
        rw [h2] at hb
        rw [← h1]
        exact (measBoundaryE_continue cfg fid s s1 es1 hb).1
  · intro n now0 s₀ s es h0 h
    have := measRun_next_accum cfg fid n s₀ s es h
    rw [this, h0]
    ring

theorem next_boundary_accumulates_w :
    measLoopStep ⟨1, 2, none, none, none, none, none, 0⟩ 0 ⟨metricsInit, 5, true⟩ 7 =
      measLoopStep ⟨1, 2, none, none, none, none, none, 0⟩ 0 ⟨metricsInit, 5, true⟩ 9 ∧
    (⟨Metrics.increment metricsInit Stat.window, 7, true⟩ : MeasState).next =
      (⟨metricsInit, 5, true⟩ : MeasState).next +
        (⟨1, 2, none, none, none, none, none, 0⟩ : Config).interval ∧
    (⟨metricsInit, 5, true⟩ : MeasState).next =
      3 + (0 + 1) * (⟨1, 2, none, none, none, none, none, 0⟩ : Config).interval :=
  ⟨(next_boundary_accumulates ⟨1, 2, none, none, none, none, none, 0⟩ 0).1
      ⟨metricsInit, 5, true⟩ 7 9 (show (5 : ℕ) ≤ 7 by omega) (show (5 : ℕ) ≤ 9 by omega),
    (next_boundary_accumulates ⟨1, 2, none, none, none, none, none, 0⟩ 0).2.1
      ⟨metricsInit, 5, true⟩ ⟨Metrics.increment metricsInit Stat.window, 7, true⟩
      [Effect.incrStat Stat.window, Effect.printStats] 9 rfl,
    (next_boundary_accumulates ⟨1, 2, none, none, none, none, none, 0⟩ 0).2.2
      0 3 ⟨metricsInit, 5, true⟩ ⟨metricsInit, 5, true⟩ [] rfl rfl⟩

/-! ### Claim C7 -/

/-- Claim C7: when a warmup target is configured, the warmup pool is
launched with all three rate limiters absent (fully unthrottled) and with
a freshly created private stop flag (allocation id 0) that is distinct
from the steady-state phase's stop flag (allocation id 1). -/
theorem warmup_pool_unthrottled (cfg : Config) (m : Metrics) (obs : List Obs) (now0 fuel : ℕ)
    (target : ℚ) (h : cfg.warmup_hitrate = some target) :
    (mainRun cfg m obs now0 fuel).warmup.launched = some ⟨0, none, none, none⟩ ∧
    (mainRun cfg m obs now0 fuel).steadyCC.control = 1 ∧
    (∀ cc, (mainRun cfg m obs now0 fuel).warmup.launched = some cc →
      cc.request_ratelimiter = none ∧ cc.connect_ratelimiter = none ∧ cc.close_rate = none ∧
      cc.control ≠ (mainRun cfg m obs now0 fuel).steadyCC.control) := by
  obtain ⟨h1, _, h3⟩ := mainRun_fields cfg m obs now0 fuel
  have hdw_l : (do_warmup cfg m 0 obs).launched = some ⟨0, none, none, none⟩ := by
    unfold do_warmup
    rw [h]
  have hdw_u : (do_warmup cfg m 0 obs).usedFlags = 1 := by
    unfold do_warmup
    rw [h]
  have hctl : (mainRun cfg m obs now0 fuel).steadyCC.control = 1 := by
    rw [h3]
    exact hdw_u
  refine ⟨by rw [h1, hdw_l], hctl, ?_⟩
  intro cc hcc
  rw [h1, hdw_l] at hcc
  obtain rfl : (⟨0, none, none, none⟩ : ClientConfig) = cc := Option.some.inj hcc
  refine ⟨rfl, rfl, rfl, ?_⟩
  rw [hctl]
  decide

theorem warmup_pool_unthrottled_w :
    (mainRun ⟨2, 1, none, some (1 / 2), none, none, none, 0⟩ metricsInit [] 0 0).warmup.launched
      = some ⟨0, none, none, none⟩ ∧
    (mainRun ⟨2, 1, none, some (1 / 2), none, none, none, 0⟩ metricsInit [] 0 0).steadyCC.control
      = 1 ∧
    (∀ cc,
      (mainRun ⟨2, 1, none, some (1 / 2), none, none, none, 0⟩ metricsInit [] 0 0).warmup.launched
        = some cc →
      cc.request_ratelimiter = none ∧ cc.connect_ratelimiter = none ∧ cc.close_rate = none ∧
      cc.control ≠
        (mainRun ⟨2, 1, none, some (1 / 2), none, none, none, 0⟩ metricsInit [] 0 0).steadyCC.control) :=
  warmup_pool_unthrottled ⟨2, 1, none, some (1 / 2), none, none, none, 0⟩ metricsInit [] 0 0
    (1 / 2) rfl

/-! ### Helper lemmas: every flag store in the trace writes "stop" (claim C8) -/

/-- Every `storeFlag` effect in the list writes "stop" (`false`) and every
`newFlag` effect creates the flag as "run" (`true`). -/
def flagsOk (l : List Effect) : Prop :=
  ∀ (fid : ℕ) (v : Bool),
    (Effect.storeFlag fid v ∈ l → v = false) ∧ (Effect.newFlag fid v ∈ l → v = true)

theorem flagsOk_nil : flagsOk [] := by
  intro fid v
  constructor <;> intro h <;> simp at h

theorem flagsOk_append {l1 l2 : List Effect} (h1 : flagsOk l1) (h2 : flagsOk l2) :
    flagsOk (l1 ++ l2) := by
  intro fid v
  constructor <;> intro h <;> rcases List.mem_append.mp h with h | h
  · exact (h1 fid v).1 h
  · exact (h2 fid v).1 h
  · exact (h1 fid v).2 h
  · exact (h2 fid v).2 h

theorem flagsOk_warmupIter (t : ℚ) (i fid warm : ℕ) (m : Metrics) (o : Obs) :
    flagsOk (warmupIter t i fid warm m o).effects := by
  rw [warmupIter_effects]
  intro fid' v
  by_cases h : 3 ≤ (if obsMeets t o then warm + 1 else 0)
  · rw [if_pos h]
    constructor <;> intro hm <;> simp at hm
    exact hm.2
  · rw [if_neg h]
    constructor <;> intro hm <;> simp at hm

theorem flagsOk_warmupLoop (t : ℚ) (i fid : ℕ) :
    ∀ (obs : List Obs) (warm : ℕ) (m : Metrics),
      flagsOk (warmupLoop t i fid warm m obs).effects := by
  intro obs
  induction obs with
  | nil =>
    intro warm m
    exact flagsOk_nil
  | cons o rest ih =>
    intro warm m
    simp only [warmupLoop]
    by_cases h : (warmupIter t i fid warm m o).converged = true
    · rw [if_pos h]
      exact flagsOk_warmupIter t i fid warm m o
    · rw [if_neg h]
      exact flagsOk_append (flagsOk_warmupIter t i fid warm m o) (ih _ _)

theorem flagsOk_do_warmup (cfg : Config) (m : Metrics) (fid : ℕ) (obs : List Obs) :
    flagsOk (do_warmup cfg m fid obs).effects := by
  unfold do_warmup
  cases h : cfg.warmup_hitrate with
  | none => exact flagsOk_nil
  | some target =>
    show flagsOk (Effect.newFlag fid true :: Effect.launchPool ⟨fid, none, none, none⟩ ::
      (warmupLoop target cfg.interval fid 0 m obs).effects)
    intro fid' v
    constructor <;> intro hm
    · rcases List.mem_cons.mp hm with hm | hm
      · exact absurd hm (by simp)
      · rcases List.mem_cons.mp hm with hm | hm
        · exact absurd hm (by simp)
        · exact (flagsOk_warmupLoop target cfg.interval fid obs 0 m fid' v).1 hm
    · rcases List.mem_cons.mp hm with hm | hm
      · simp at hm
        exact hm.2
      · rcases List.mem_cons.mp hm with hm | hm
        · exact absurd hm (by simp)
        · exact (flagsOk_warmupLoop target cfg.interval fid obs 0 m fid' v).2 hm

theorem flagsOk_crossing_exit (fid : ℕ) :
    flagsOk [Effect.incrStat Stat.window, Effect.printStats, Effect.storeFlag fid false] := by
  intro fid' v
  constructor <;> intro hm <;> simp at hm
  exact hm.2

theorem flagsOk_crossing_cont :
    flagsOk [Effect.incrStat Stat.window, Effect.printStats] := by
  intro fid' v
  constructor <;> intro hm <;> simp at hm

theorem flagsOk_measBoundaryE (cfg : Config) (fid : ℕ) (s s' : MeasState) (exit : Bool)
    (es : List Effect) (h : measBoundaryE cfg fid s = Except.ok (s', exit, es)) :
    flagsOk es := by
  cases hw : Config.windows cfg with
  | none =>
    rw [measBoundaryE_none cfg fid s hw] at h
    simp only [Except.ok.injEq, Prod.mk.injEq] at h
    obtain ⟨_, _, h3⟩ := h
    exact h3 ▸ flagsOk_crossing_cont
  | some M =>
    have hb := measBoundaryE_some cfg fid s M ((Metrics.reading s.metrics Stat.window).getD 0)
      hw rfl
    by_cases hx : M ≤ (Metrics.reading s.metrics Stat.window).getD 0 + 1
    · rw [if_pos hx] at hb
      rw [hb] at h
      simp only [Except.ok.injEq, Prod.mk.injEq] at h
      obtain ⟨_, _, h3⟩ := h
      exact h3 ▸ flagsOk_crossing_exit fid
    · rw [if_neg hx] at hb
      rw [hb] at h
      simp only [Except.ok.injEq, Prod.mk.injEq] at h
      obtain ⟨_, _, h3⟩ := h
      exact h3 ▸ flagsOk_crossing_cont

theorem flagsOk_measRun (cfg : Config) (fid : ℕ) :
    ∀ (n : ℕ) (s s' : MeasState) (exit : Bool) (es : List Effect),
      measRun cfg fid n s = Except.ok (s', exit, es) → flagsOk es := by
  intro n
  induction n with
  | zero =>
    intro s s' exit es h
    rw [measRun] at h
    simp only [Except.ok.injEq, Prod.mk.injEq] at h
    obtain ⟨_, _, h3⟩ := h
    exact h3 ▸ flagsOk_nil
  | succ n ih =>
    intro s s' exit es h
    cases hb : measBoundaryE cfg fid s with
    | error e =>
      rw [measRun, hb] at h
      exact absurd h (by simp)
    | ok r =>
      obtain ⟨s1, ex1, es1⟩ := r
      rw [measRun_succ_ok cfg fid n s s1 ex1 es1 hb] at h
      cases ex1 with
      | true =>
        rw [if_pos rfl] at h
        simp only [Except.ok.injEq, Prod.mk.injEq] at h
        obtain ⟨_, _, h3⟩ := h
        exact h3 ▸ flagsOk_measBoundaryE cfg fid s s1 true es1 hb
      | false =>
        rw [if_neg (by simp)] at h
        cases hr : measRun cfg fid n s1 with
        | error e =>
          rw [hr] at h
          exact absurd h (by simp)
        | ok r2 =>
          obtain ⟨s2, ex2, es2⟩ := r2
          rw [hr] at h
          simp only [Except.ok.injEq, Prod.mk.injEq] at h
          obtain ⟨_, _, h3⟩ := h
          exact h3 ▸
            flagsOk_append (flagsOk_measBoundaryE cfg fid s s1 false es1 hb) (ih s1 s2 ex2 es2 hr)

theorem flagsOk_mainRun_meas (cfg : Config) (m0 : Metrics) (obs0 : List Obs) (now0 fuel : ℕ) :
    flagsOk (mainRun cfg m0 obs0 now0 fuel).measEffects := by
  simp only [mainRun]
  cases hX : measRun cfg (do_warmup cfg m0 0 obs0).usedFlags fuel
      ⟨(do_warmup cfg m0 0 obs0).metrics, now0 + cfg.interval, true⟩ with
  | error e => exact flagsOk_nil
  | ok r =>
    obtain ⟨s1, exit, es⟩ := r
    exact flagsOk_measRun cfg _ fuel _ s1 exit es hX

/-! ### Claim C8 -/

/-- Claim C8: along every execution of the orchestration core, every stop
flag is created with value "run" (`true`) and every store to a stop flag
after its construction writes "stop" (`false`) — no store ever resets a
flag to "run", in either phase, so each flag's value is monotone within
its phase. -/
theorem stop_flag_monotone (cfg : Config) (m0 : Metrics) (obs0 : List Obs) (now0 fuel : ℕ) :
    ∀ (fid : ℕ) (v : Bool),
      (Effect.storeFlag fid v ∈ (mainRun cfg m0 obs0 now0 fuel).effects → v = false) ∧
      (Effect.newFlag fid v ∈ (mainRun cfg m0 obs0 now0 fuel).effects → v = true) := by
  have hmid : flagsOk [Effect.newFlag (do_warmup cfg m0 0 obs0).usedFlags true,
      Effect.launchPool (mainRun cfg m0 obs0 now0 fuel).steadyCC] := by
    intro fid v
    constructor <;> intro hm <;> simp at hm
    exact hm.2
  have hall : flagsOk (mainRun cfg m0 obs0 now0 fuel).effects := by
    rw [mainRun_effects_eq]
    exact flagsOk_append (flagsOk_append (flagsOk_do_warmup cfg m0 0 obs0) hmid)
      (flagsOk_mainRun_meas cfg m0 obs0 now0 fuel)
  exact hall

theorem stop_flag_monotone_w :
    Effect.storeFlag 0 false ∈
      (mainRun ⟨1, 1, some 1, none, none, none, none, 0⟩ metricsInit [] 0 1).effects ∧
    Effect.newFlag 0 true ∈
      (mainRun ⟨1, 1, some 1, none, none, none, none, 0⟩ metricsInit [] 0 1).effects ∧
    false = false ∧ true = true :=
  ⟨by decide, by decide,
    (stop_flag_monotone ⟨1, 1, some 1, none, none, none, none, 0⟩ metricsInit [] 0 1 0 false).1
      (by decide),
    (stop_flag_monotone ⟨1, 1, some 1, none, none, none, none, 0⟩ metricsInit [] 0 1 0 true).2
      (by decide)⟩

/-! ### Claim C9 -/

theorem warmupLoop_metrics_zero (t : ℚ) (i fid : ℕ) :
    ∀ (obs : List Obs) (warm : ℕ) (m : Metrics),
      (warmupLoop t i fid warm m obs).converged = true →
      ∀ s, Metrics.reading (warmupLoop t i fid warm m obs).metrics s = some 0 := by
  intro obs
  induction obs with
  | nil =>
    intro warm m h s
    simp [warmupLoop] at h
  | cons o rest ih =>
    intro warm m h s
    simp only [warmupLoop] at h ⊢
    by_cases hc : (warmupIter t i fid warm m o).converged = true
    · rw [if_pos hc]
      exact warmupIter_metrics t i fid warm m o s
    · rw [if_neg hc] at h ⊢
      exact ih _ _ h s

/-- Claim C9: every iteration of the warmup poll loop ends by zeroing all
metrics counters — in the converged branch and in the continuing branch
alike — so the `Window` stat incremented at the start of the interval is
also cleared, and when the controller returns converged every counter
(including `Window`) reads zero: the steady-state measurement loop starts
counting windows from zero. -/
theorem warmup_zeroes_every_interval :
    (∀ (t : ℚ) (i fid warm : ℕ) (m : Metrics) (o : Obs) (s : Stat),
      Metrics.reading (warmupIter t i fid warm m o).metrics s = some 0) ∧
    (∀ (cfg : Config) (m : Metrics) (fid : ℕ) (obs : List Obs),
      (do_warmup cfg m fid obs).converged = true →
      ∀ s, Metrics.reading (do_warmup cfg m fid obs).metrics s = some 0) := by
  constructor
  · exact warmupIter_metrics
  · intro cfg m fid obs h s
    unfold do_warmup at h ⊢
    cases ht : cfg.warmup_hitrate with
    | none =>
      rw [ht] at h
      simp at h
    | some target =>
      rw [ht] at h
      exact warmupLoop_metrics_zero target cfg.interval fid obs 0 m h s

/-- Evaluation used by witnesses: a target of 0 is met by an interval with
one hit and no misses. -/
theorem hitrateMeets_zero_one : hitrateMeets 0 1 0 = true := by
  unfold hitrateMeets
  rw [if_neg (by omega)]
  norm_num

theorem warmup_zeroes_every_interval_w :
    (do_warmup ⟨1, 1, none, some 0, none, none, none, 0⟩ metricsInit 0
      [⟨some 1, some 0, fun _ => none⟩, ⟨some 1, some 0, fun _ => none⟩,
        ⟨some 1, some 0, fun _ => none⟩]).converged = true ∧
    (∀ s, Metrics.reading (do_warmup ⟨1, 1, none, some 0, none, none, none, 0⟩ metricsInit 0
      [⟨some 1, some 0, fun _ => none⟩, ⟨some 1, some 0, fun _ => none⟩,
        ⟨some 1, some 0, fun _ => none⟩]).metrics s = some 0) := by
  have hob : obsMeets 0 ⟨some 1, some 0, fun _ => none⟩ = true := hitrateMeets_zero_one
  have hc : (do_warmup ⟨1, 1, none, some 0, none, none, none, 0⟩ metricsInit 0
      [⟨some 1, some 0, fun _ => none⟩, ⟨some 1, some 0, fun _ => none⟩,
        ⟨some 1, some 0, fun _ => none⟩]).converged = true := by
    show (warmupLoop 0 1 0 0 metricsInit
      [⟨some 1, some 0, fun _ => none⟩, ⟨some 1, some 0, fun _ => none⟩,
        ⟨some 1, some 0, fun _ => none⟩]).converged = true
    rw [warmupLoop_converged_eq]
    exact streak3_of_three (obsMeets 0) [] 0 _ _ _ [] hob hob hob
  exact ⟨hc, warmup_zeroes_every_interval.2 _ metricsInit 0 _ hc⟩

/-! ### Claim C10 -/

/-- Claim C10: with a maximum window count configured, the measurement
loop unconditionally unwraps the optional `Window` reading — an absent
reading is a panic (`Except.error`) — but a reading taken right after the
loop's own increment is always present, so the boundary crossing never
faults; in contrast, the warmup loop defaults absent
`ResponsesHit`/`ResponsesMiss` readings to 0 and behaves exactly as if
they read zero, so it cannot fault on an absent reading. -/
theorem window_unwrap_contrast :
    (∀ M : ℕ, windowCheck (some M) none = Except.error ()) ∧
    (∀ (m : Metrics) (s : Stat),
      Metrics.reading (Metrics.increment m s) s = some ((Metrics.reading m s).getD 0 + 1)) ∧
    (∀ (cfg : Config) (fid : ℕ) (s : MeasState),
      ∃ r, measBoundaryE cfg fid s = Except.ok r) ∧
    (∀ (t : ℚ) (i fid warm : ℕ) (m : Metrics) (f : ℕ → Option ℕ),
      warmupIter t i fid warm m ⟨none, none, f⟩ = warmupIter t i fid warm m ⟨some 0, some 0, f⟩) := by
  refine ⟨fun M => rfl, reading_increment_self, ?_, fun t i fid warm m f => rfl⟩
  intro cfg fid s
  cases hw : Config.windows cfg with
  | none => exact ⟨_, measBoundaryE_none cfg fid s hw⟩
  | some M =>
    have hb := measBoundaryE_some cfg fid s M ((Metrics.reading s.metrics Stat.window).getD 0)
      hw rfl
    by_cases hx : M ≤ (Metrics.reading s.metrics Stat.window).getD 0 + 1
    · rw [if_pos hx] at hb
      exact ⟨_, hb⟩
    · rw [if_neg hx] at hb
      exact ⟨_, hb⟩

end RpcPerf
